import Mathlib

/-!
Verification development for the neon-vault slot math engine.

Shallow embedding of the core logic of `src/slot_config.py`, `src/simulator.py`
and `src/rtp_tuner.py`.  Symbols are Lean `String`s matching the Python symbol
identifiers; Python integers are `Nat`; bet-relative payouts (Python floats
obtained by integer division and decimal rounding) are modelled as exact
rationals `ℚ`; Python dict membership tests combined with lookups are modelled
as `Option`-valued maps; Python exceptions raised while sampling are modelled
by `Option`-valued computations.  The Mersenne-Twister generator is modelled by
an abstract draw stream `ℕ → ℕ` (draw index to drawn value): the Python
generator is a deterministic function of its seed, so a seeded run corresponds
to a fixed stream.
-/

namespace Slot

/-- Keys of the `SYMBOLS` table in `slot_config.py`. -/
def SYMBOLS : List String := ["W", "S", "H1", "H2", "H3", "L1", "L2", "L3", "L4"]

/-- `REEL_STRIPS` from `slot_config.py`: five reels of 30 stops each. -/
def REEL_STRIPS : List (List String) :=
  [["L4", "L3", "L2", "H3", "L4", "L1", "L3", "H2", "L4", "L2",
    "L1", "L3", "H1", "L4", "L2", "L3", "L1", "W",  "L4", "L2",
    "L3", "H3", "L1", "L4", "L2", "S",  "L3", "L4", "L1", "L2"],
   ["L2", "L4", "L3", "L1", "H3", "L4", "L2", "L3", "H2", "L1",
    "L4", "L3", "L2", "H1", "L1", "L4", "L3", "W",  "L2", "L4",
    "L1", "L3", "H3", "L2", "L4", "L1", "S",  "L3", "L4", "L2"],
   ["L3", "L1", "L4", "L2", "H3", "L3", "L1", "L4", "H2", "L2",
    "L3", "L1", "H1", "L4", "L2", "L3", "W",  "L1", "L4", "L2",
    "L3", "H3", "L4", "L1", "L2", "L3", "S",  "L4", "L1", "L2"],
   ["L1", "L2", "L3", "L4", "H3", "L1", "L2", "L4", "H2", "L3",
    "L1", "L4", "H1", "L2", "L3", "L1", "L4", "W",  "L2", "L3",
    "L1", "L4", "H3", "L2", "L3", "L4", "S",  "L1", "L2", "L3"],
   ["L4", "L1", "L2", "L3", "H3", "L4", "L1", "L3", "H2", "L2",
    "L4", "L1", "H1", "L3", "L2", "L4", "W",  "L1", "L3", "L2",
    "L4", "H3", "L1", "L3", "L2", "S",  "L4", "L1", "L3", "L2"]]

def NUM_REELS : Nat := 5

def NUM_ROWS : Nat := 3

def STOPS_PER_REEL : Nat := 30

/-- `PAYLINES` from `slot_config.py`: 20 lines, row index per reel. -/
def PAYLINES : List (List Nat) :=
  [[1, 1, 1, 1, 1],
   [0, 0, 0, 0, 0],
   [2, 2, 2, 2, 2],
   [0, 1, 2, 1, 0],
   [2, 1, 0, 1, 2],
   [0, 0, 1, 2, 2],
   [2, 2, 1, 0, 0],
   [1, 0, 0, 0, 1],
   [1, 2, 2, 2, 1],
   [0, 1, 1, 1, 0],
   [2, 1, 1, 1, 2],
   [1, 0, 1, 0, 1],
   [1, 2, 1, 2, 1],
   [0, 1, 0, 1, 0],
   [2, 1, 2, 1, 2],
   [1, 1, 0, 1, 1],
   [1, 1, 2, 1, 1],
   [0, 0, 1, 0, 0],
   [2, 2, 1, 2, 2],
   [0, 2, 0, 2, 0]]

/-- `PAYTABLE` from `slot_config.py` as a partial map symbol → run length →
line-bet multiplier.  `none` encodes the Python membership tests
`pay_symbol in PAYTABLE` and `count in PAYTABLE[pay_symbol]` both failing. -/
def PAYTABLE : String → Nat → Option Nat
  | "W", 3 => some 50
  | "W", 4 => some 200
  | "W", 5 => some 1000
  | "H1", 3 => some 30
  | "H1", 4 => some 100
  | "H1", 5 => some 500
  | "H2", 3 => some 20
  | "H2", 4 => some 75
  | "H2", 5 => some 250
  | "H3", 3 => some 15
  | "H3", 4 => some 50
  | "H3", 5 => some 150
  | "L1", 3 => some 10
  | "L1", 4 => some 30
  | "L1", 5 => some 100
  | "L2", 3 => some 8
  | "L2", 4 => some 25
  | "L2", 5 => some 75
  | "L3", 3 => some 5
  | "L3", 4 => some 20
  | "L3", 5 => some 50
  | "L4", 3 => some 3
  | "L4", 4 => some 15
  | "L4", 5 => some 30
  | _, _ => none

/-- `SCATTER_PAYS.get(count, 0)`: total-bet multiplier by exact scatter count. -/
def SCATTER_PAYS : Nat → Nat
  | 3 => 5
  | 4 => 20
  | 5 => 100
  | _ => 0

/-- `FREE_SPINS_TRIGGER.get(count, 0)`: free spins awarded by exact scatter count. -/
def FREE_SPINS_TRIGGER : Nat → Nat
  | 3 => 10
  | 4 => 15
  | 5 => 25
  | _ => 0

def FREE_SPINS_MULTIPLIER : Nat := 3

def TARGET_RTP : ℚ := 96 / 100

/-- One reel's visible column in `get_visible_grid` (`simulator.py:41`):
the three symbols at `stop`, `stop+1`, `stop+2` modulo the strip length. -/
def window (strip : List String) (stop : Nat) : List String :=
  [strip.getD (stop % strip.length) "",
   strip.getD ((stop + 1) % strip.length) "",
   strip.getD ((stop + 2) % strip.length) ""]

/-- `get_visible_grid` (`simulator.py:35`): one column per reel. -/
def get_visible_grid (stop_positions : List Nat) : List (List String) :=
  List.zipWith window REEL_STRIPS stop_positions

/-- The symbol sequence of a payline,
`[grid[reel][row] for reel, row in enumerate(payline)]` (`simulator.py:61`).
The same expression appears verbatim in `quick_sim` (`rtp_tuner.py:38`). -/
def symbolsOnLine (grid : List (List String)) (payline : List Nat) : List String :=
  List.zipWith (fun col row => col.getD row "") grid payline

/-- The paying-symbol scan of `evaluate_payline` (`simulator.py:64`–`74`):
`none` models the early `return None` on a scatter; `some none` models the
loop completing with `pay_symbol` still `None` (all wilds); `some (some s)`
models breaking at the first non-wild symbol `s`. -/
def findPaySym : List String → Option (Option String)
  | [] => some none
  | s :: rest =>
    if s = "S" then none
    else if s ≠ "W" then some (some s)
    else findPaySym rest

/-- The consecutive-match counter of `evaluate_payline` (`simulator.py:77`–`82`). -/
def countRun (pay : String) : List String → Nat
  | [] => 0
  | s :: rest => if s = pay ∨ s = "W" then countRun pay rest + 1 else 0

/-- Body of `evaluate_payline` (`simulator.py:54`) on an extracted symbol
sequence: pay-symbol scan, all-wild default, run count, paytable lookup. -/
def evalLineSyms (syms : List String) : Option (String × Nat × Nat) :=
  match findPaySym syms with
  | none => none
  | some op =>
    let pay := op.getD "W"
    let count := countRun pay syms
    if 3 ≤ count then
      match PAYTABLE pay count with
      | some v => some (pay, count, v)
      | none => none
    else none

/-- `evaluate_payline` (`simulator.py:54`). -/
def evaluate_payline (grid : List (List String)) (payline : List Nat) :
    Option (String × Nat × Nat) :=
  evalLineSyms (symbolsOnLine grid payline)

/-- The grid-wide scatter count of `evaluate_scatters` (`simulator.py:96`–`100`);
the same count is computed inline in `quick_sim` (`rtp_tuner.py:58`). -/
def scatterCount (grid : List (List String)) : Nat :=
  (grid.map (fun col => col.countP (fun s => s == "S"))).sum

/-- `evaluate_scatters` (`simulator.py:91`): count, payout, free spins. -/
def evaluate_scatters (grid : List (List String)) : Nat × Nat × Nat :=
  (scatterCount grid, SCATTER_PAYS (scatterCount grid),
   FREE_SPINS_TRIGGER (scatterCount grid))

/-- One entry of the `winning_lines` list built in `evaluate_spin`
(`simulator.py:125`). -/
structure LineWin where
  line : Nat
  symbol : String
  count : Nat
  payout : Nat
deriving DecidableEq

/-- The payline loop of `evaluate_spin` (`simulator.py:120`–`130`) over an
enumerated payline list: accumulates `total_line_payout` and `winning_lines`. -/
def linesEval (grid : List (List String)) : List (Nat × List Nat) → Nat × List LineWin
  | [] => (0, [])
  | (idx, pl) :: rest =>
    let r := linesEval grid rest
    match evaluate_payline grid pl with
    | some (sym, cnt, pay) => (pay + r.1, ⟨idx + 1, sym, cnt, pay⟩ :: r.2)
    | none => r

/-- Decimal rounding `round(q, d)` used for bucket keys and export
probabilities, modelled as rounding `q * 10^d` to the nearest integer.
(Python rounds decimal ties to even; no statement below depends on the
tie-breaking rule, only on the rounding error being at most half a unit.) -/
def roundTo (d : Nat) (q : ℚ) : ℚ :=
  ((round (q * (10 : ℚ) ^ d) : ℤ) : ℚ) / (10 : ℚ) ^ d

/-- The `details` dict returned by `evaluate_spin` (`simulator.py:141`). -/
structure SpinDetails where
  grid : List (List String)
  winning_lines : List LineWin
  scatter_count : Nat
  scatter_payout : Nat
  free_spins : Nat
  total_payout : ℚ
deriving DecidableEq

/-- `evaluate_spin` (`simulator.py:108`): line loop, per-line to total-bet
conversion by dividing by the number of paylines, scatter evaluation,
free spins reported as a separate field of the details. -/
def evaluate_spin (stop_positions : List Nat) : ℚ × SpinDetails :=
  let grid := get_visible_grid stop_positions
  let lr := linesEval grid PAYLINES.enum
  let num_paylines := PAYLINES.length
  let base : ℚ := (lr.1 : ℚ) / (num_paylines : ℚ)
  let es := evaluate_scatters grid
  let total : ℚ := base + (es.2.1 : ℚ)
  (total, ⟨grid, lr.2, es.1, es.2.1, es.2.2, roundTo 4 total⟩)

/-- One stored example of an outcome bucket (`simulator.py:178`). -/
structure ExampleRec where
  stops : List Nat
  grid : List (List String)
  winning_lines : List LineWin
  scatter_count : Nat
deriving DecidableEq

/-- One outcome bucket: observed frequency plus up to three stored examples
(`simulator.py:164`, `174`–`183`). -/
structure Bucket where
  count : Nat
  examples : List ExampleRec
deriving DecidableEq

/-- One trial's update of the outcome table (`simulator.py:173`–`183`):
the outcome table `outcome_buckets` is an insertion-ordered association list
from rounded payout key to bucket, mirroring Python dict semantics;
`defaultdict` creates a fresh bucket on first access, the count is
incremented, and an example is stored while fewer than 3 are present. -/
def bump (tbl : List (ℚ × Bucket)) (key : ℚ) (ex : ExampleRec) : List (ℚ × Bucket) :=
  match tbl with
  | [] => [(key, ⟨1, [ex]⟩)]
  | (k, b) :: rest =>
    if k = key then
      (k, ⟨b.count + 1, if b.examples.length < 3 then b.examples ++ [ex] else b.examples⟩) :: rest
    else
      (k, b) :: bump rest key ex

/-- The stop positions of trial `i`: one draw per reel in reel-index order
(`simulator.py:169`), reading the seeded generator's draw stream `s`. -/
def trialStops (s : Nat → Nat) (i : Nat) : List Nat :=
  (List.range NUM_REELS).map (fun r => s (NUM_REELS * i + r))

/-- The trial loop of `run_simulation` (`simulator.py:167`–`185`): `m` trials
remaining, `i` the index of the next trial, `tbl` the accumulator. -/
def runSimFrom (s : Nat → Nat) : Nat → Nat → List (ℚ × Bucket) → List (ℚ × Bucket)
  | 0, _, tbl => tbl
  | Nat.succ m, i, tbl =>
    let stops := trialStops s i
    let res := evaluate_spin stops
    let key := roundTo 2 res.1
    runSimFrom s m (i + 1)
      (bump tbl key ⟨stops, res.2.grid, res.2.winning_lines, res.2.scatter_count⟩)

/-- `run_simulation` (`simulator.py:155`) restricted to its outcome-table
computation: the console reporting and the returned RTP scalar are
collaborator-facing and omitted.  `s` is the seeded generator's draw stream. -/
def run_simulation (s : Nat → Nat) (num_samples : Nat) : List (ℚ × Bucket) :=
  runSimFrom s num_samples 0 []

/-- Total observed frequency of an outcome table. -/
def tableCount (tbl : List (ℚ × Bucket)) : Nat :=
  (tbl.map (fun kb => kb.2.count)).sum

/-- The sort of `export_base_game_csv` (`simulator.py:268`): buckets ordered
by payout key. -/
def sortedBuckets (tbl : List (ℚ × Bucket)) : List (ℚ × Bucket) :=
  tbl.insertionSort (fun a b => a.1 ≤ b.1)

/-- The probability column written by `export_base_game_csv`
(`simulator.py:273`–`279`): per sorted bucket, `round(count / total, 10)`. -/
def exportProbs (tbl : List (ℚ × Bucket)) (total_samples : Nat) : List ℚ :=
  (sortedBuckets tbl).map (fun kb => roundTo 10 ((kb.2.count : ℚ) / (total_samples : ℚ)))

/-- The stop positions of sub-spin `j` of a free-spins session whose first
draw index is `start` (`simulator.py:233`). -/
def fsStops (s : Nat → Nat) (start j : Nat) : List Nat :=
  (List.range NUM_REELS).map (fun r => s (start + NUM_REELS * j + r))

/-- The boosted payout of one free-spins sub-spin (`simulator.py:234`–`237`):
only the line-payout portion of the spin, divided by the number of paylines,
times the free-spins multiplier. -/
def fsBoostedSpin (s : Nat → Nat) (start j : Nat) : ℚ :=
  let res := evaluate_spin (fsStops s start j)
  let line_payout : ℚ :=
    ((((res.2.winning_lines.map (fun w => w.payout)).sum : ℕ)) : ℚ) / (PAYLINES.length : ℚ)
  line_payout * (FREE_SPINS_MULTIPLIER : ℚ)

/-- The spin loop of one free-spins session (`simulator.py:229`–`238`):
`j` the index of the next sub-spin, `m` the sub-spins remaining. -/
def fsSessionAux (s : Nat → Nat) (start : Nat) : Nat → Nat → ℚ
  | _, 0 => 0
  | j, Nat.succ m => fsBoostedSpin s start j + fsSessionAux s start (j + 1) m

/-- The `session_payout` accumulated by one session of
`simulate_free_spins_mode` (`simulator.py:229`–`241`) before being rounded to
the bucket key: `num_fs` sub-spins drawn from the stream starting at `start`. -/
def simulate_fs_session (s : Nat → Nat) (start num_fs : Nat) : ℚ :=
  fsSessionAux s start 0 num_fs

end Slot

namespace Tuner

open Slot

/-- The pay-symbol loop of `quick_sim` (`rtp_tuner.py:40`–`42`): returns the
value of `pay_sym` after the loop (`none` both on a scatter break and when the
loop completes without assigning). -/
def quickLoop : List String → Option String
  | [] => none
  | s :: rest =>
    if s = "S" then none
    else if s ≠ "W" then some s
    else quickLoop rest

/-- The pay-symbol of a `quick_sim` line after the all-wild fixup
(`rtp_tuner.py:43`–`45`): when the loop left `pay_sym` unassigned and the line
is wilds-and-scatters only with no scatter present, the line pays as wild. -/
def quickPaySym (syms : List String) : Option String :=
  match quickLoop syms with
  | some p => some p
  | none =>
    if syms.all (fun s => s == "W" || s == "S") && !(syms.contains "S") then some "W"
    else none

/-- The consecutive-match counter of `quick_sim` (`rtp_tuner.py:47`–`50`). -/
def quickCount (pay : String) : List String → Nat
  | [] => 0
  | s :: rest => if s = pay ∨ s = "W" then quickCount pay rest + 1 else 0

/-- One payline's contribution to `line_total` in `quick_sim`
(`rtp_tuner.py:39`–`53`), with the paytable taken as a parameter (the source
reads the module constant `PAYTABLE`). -/
def quickLinePayout (pt : String → Nat → Option Nat) (syms : List String) : Nat :=
  match quickPaySym syms with
  | none => 0
  | some p =>
    let count := quickCount p syms
    if 3 ≤ count then (pt p count).getD 0 else 0

/-- One reel's visible column as built inline in `quick_sim`
(`rtp_tuner.py:28`–`32`). -/
def quickCol (strip : List String) (stop : Nat) : List String :=
  [strip.getD (stop % strip.length) "",
   strip.getD ((stop + 1) % strip.length) "",
   strip.getD ((stop + 2) % strip.length) ""]

/-- The grid `quick_sim` builds for given stop values (`rtp_tuner.py:25`–`33`). -/
def quickGrid (strips : List (List String)) (stops : List Nat) : List (List String) :=
  (List.range NUM_REELS).map (fun r => quickCol (strips.getD r []) (stops.getD r 0))

/-- One spin's contribution to `total_payout` in `quick_sim`
(`rtp_tuner.py:36`–`59`): the payline total divided by the number of paylines,
plus the scatter payout for the grid-wide scatter count. -/
def quickSpinFromGrid (pt : String → Nat → Option Nat) (grid : List (List String)) : ℚ :=
  let line_total := (PAYLINES.map (fun pl => quickLinePayout pt (symbolsOnLine grid pl))).sum
  (line_total : ℚ) / (PAYLINES.length : ℚ) + (SCATTER_PAYS (scatterCount grid) : ℚ)

/-- `random.randint(0, len(strip) - 1)` (`rtp_tuner.py:27`): `none` models the
`ValueError` Python raises on an empty range (empty strip); otherwise the
stream value is reduced into the stop range. -/
def drawStop (strip : List String) (v : Nat) : Option Nat :=
  if strip.length = 0 then none else some (v % strip.length)

/-- The grid-building loop of one `quick_sim` trial (`rtp_tuner.py:25`–`33`):
`r` the next reel index, `m` reels remaining, drawing from stream `s` at trial
index `i`; any failed draw aborts the trial (and the run). -/
def quickGridAux (strips : List (List String)) (s : Nat → Nat) (i : Nat) :
    Nat → Nat → Option (List (List String))
  | _, 0 => some []
  | r, Nat.succ m =>
    match drawStop (strips.getD r []) (s (NUM_REELS * i + r)) with
    | none => none
    | some stop =>
      (quickGridAux strips s i (r + 1) m).map
        (fun rest => quickCol (strips.getD r []) stop :: rest)

/-- The visible grid of trial `i` in `quick_sim`. -/
def quickTrialGrid (strips : List (List String)) (s : Nat → Nat) (i : Nat) :
    Option (List (List String)) :=
  quickGridAux strips s i 0 NUM_REELS

/-- The trial loop of `quick_sim` (`rtp_tuner.py:23`–`59`): `m` trials
remaining, `i` the next trial index, `acc` the accumulated `total_payout`. -/
def quickSimFrom (pt : String → Nat → Option Nat) (strips : List (List String))
    (s : Nat → Nat) : Nat → Nat → ℚ → Option ℚ
  | 0, _, acc => some acc
  | Nat.succ m, i, acc =>
    match quickTrialGrid strips s i with
    | none => none
    | some grid => quickSimFrom pt strips s m (i + 1) (acc + quickSpinFromGrid pt grid)

/-- `quick_sim` (`rtp_tuner.py:18`): total payout over `num_spins` trials,
divided by the trial count.  The paytable is a parameter (the source reads the
module constant); `none` models a run aborted by a raised exception. -/
def quick_sim (pt : String → Nat → Option Nat) (strips : List (List String))
    (s : Nat → Nat) (num_spins : Nat) : Option ℚ :=
  (quickSimFrom pt strips s num_spins 0 0).map (fun total => total / (num_spins : ℚ))

/-- The iteration loop of `tune_strips` (`rtp_tuner.py:81`–`123`).  The
re-sampling (`quick_sim`, whose value depends on the generator stream) and the
strip perturbation (`rtp_tuner.py:89`–`114`, driven by `random.choice` and
`random.choices`) are abstracted as oracles `measure` and `perturb` threading
a generator state `σ`; the best-so-far retention logic is embedded exactly:
break inside tolerance `0.005`, otherwise perturb with the current
target-minus-current difference, re-measure, and retain the candidate whose
measured ratio is strictly closer to the target. -/
def tuneLoop {σ : Type} (measure : σ → List (List String) → ℚ × σ)
    (perturb : σ → List (List String) → ℚ → List (List String) × σ) (target : ℚ) :
    Nat → σ → List (List String) → ℚ → List (List String) → ℚ → List (List String) × ℚ
  | 0, _, _, _, bestS, bestR => (bestS, bestR)
  | Nat.succ fuel, st, strips, current, bestS, bestR =>
    if |target - current| < 1 / 200 then (bestS, bestR)
    else
      let ps := perturb st strips (target - current)
      let ms := measure ps.2 ps.1
      if |ms.1 - target| < |bestR - target| then
        tuneLoop measure perturb target fuel ms.2 ps.1 ms.1 ps.1 ms.1
      else
        tuneLoop measure perturb target fuel ms.2 ps.1 ms.1 bestS bestR

/-- `tune_strips` (`rtp_tuner.py:64`): measure the starting strips, then run
the retention loop; returns `(best_strips, best_rtp)`.  The source starts from
the module constant `REEL_STRIPS`; the starting strips are a parameter here to
express quantification over starting Game Definitions. -/
def tune_strips {σ : Type} (measure : σ → List (List String) → ℚ × σ)
    (perturb : σ → List (List String) → ℚ → List (List String) × σ)
    (target : ℚ) (iterations : Nat) (st0 : σ) (strips0 : List (List String)) :
    List (List String) × ℚ :=
  let m0 := measure st0 strips0
  tuneLoop measure perturb target iterations m0.2 strips0 m0.1 strips0 m0.1

/-- The `(candidate, ratio)` pairs measured by the loop of `tune_strips`
after the initial measurement, in order. -/
def tuneLoopObs {σ : Type} (measure : σ → List (List String) → ℚ × σ)
    (perturb : σ → List (List String) → ℚ → List (List String) × σ) (target : ℚ) :
    Nat → σ → List (List String) → ℚ → List (List (List String) × ℚ)
  | 0, _, _, _ => []
  | Nat.succ fuel, st, strips, current =>
    if |target - current| < 1 / 200 then []
    else
      let ps := perturb st strips (target - current)
      let ms := measure ps.2 ps.1
      (ps.1, ms.1) :: tuneLoopObs measure perturb target fuel ms.2 ps.1 ms.1

/-- All `(candidate, ratio)` pairs measured by `tune_strips`, the initial
measurement first. -/
def tuneObserved {σ : Type} (measure : σ → List (List String) → ℚ × σ)
    (perturb : σ → List (List String) → ℚ → List (List String) × σ)
    (target : ℚ) (iterations : Nat) (st0 : σ) (strips0 : List (List String)) :
    List (List (List String) × ℚ) :=
  let m0 := measure st0 strips0
  (strips0, m0.1) :: tuneLoopObs measure perturb target iterations m0.2 strips0 m0.1

/-- A paytable extended with an entry for a symbol identifier `"X"` that does
not occur in the symbol table: a Game Definition violating the configuration
invariant that every paytable symbol is in the symbol table. -/
def paytableUnknownSym : String → Nat → Option Nat
  | "X", 3 => some 30
  | sym, n => Slot.PAYTABLE sym n

/-- Reel strips whose first strip is empty: a Game Definition violating the
non-empty-strip configuration invariant. -/
def stripsEmptyReel : List (List String) :=
  [] :: Slot.REEL_STRIPS.tail

end Tuner

namespace Slot

theorem findPaySym_none_of_scatter_after_wilds :
    ∀ (syms : List String) (k : Nat), (∀ x ∈ syms.take k, x = "W") →
      syms.get? k = some "S" → findPaySym syms = none := by
  intro syms
  induction syms with
  | nil => intro k _ hs; simp at hs
  | cons s rest ih =>
    intro k hw hs
    cases k with
    | zero =>
      simp at hs
      simp [findPaySym, hs]
    | succ k =>
      have hsW : s = "W" := hw s (by simp)
      have hrest : findPaySym rest = none := by
        refine ih k (fun x hx => hw x ?_) (by simpa using hs)
        simp [List.take, hx]
      simp [findPaySym, hsW, hrest]

theorem findPaySym_some_ne_scatter :
    ∀ (syms : List String) (p : String), findPaySym syms = some (some p) → p ≠ "S" := by
  intro syms
  induction syms with
  | nil => intro p h; simp [findPaySym] at h
  | cons s rest ih =>
    intro p h
    by_cases hS : s = "S"
    · simp [findPaySym, hS] at h
    · by_cases hW : s = "W"
      · rw [findPaySym, if_neg hS, hW] at h
        simp at h
        exact ih p h
      · rw [findPaySym, if_neg hS, if_pos hW] at h
        simp at h
        subst h
        exact hS

theorem countRun_get_mem :
    ∀ (syms : List String) (pay : String) (j : Nat) (x : String),
      j < countRun pay syms → syms.get? j = some x → x = pay ∨ x = "W" := by
  intro syms
  induction syms with
  | nil => intro pay j x hj _; simp [countRun] at hj
  | cons s rest ih =>
    intro pay j x hj hx
    by_cases h : s = pay ∨ s = "W"
    · cases j with
      | zero =>
        simp at hx
        subst hx
        exact h
      | succ j =>
        rw [countRun, if_pos h] at hj
        exact ih pay j x (by omega) (by simpa using hx)
    · rw [countRun, if_neg h] at hj
      omega

theorem evalLineSyms_inv (syms : List String) (p : String) (c v : Nat)
    (h : evalLineSyms syms = some (p, c, v)) :
    ∃ op, findPaySym syms = some op ∧ p = op.getD "W" ∧ c = countRun p syms ∧
      3 ≤ c ∧ PAYTABLE p c = some v := by
  unfold evalLineSyms at h
  cases hf : findPaySym syms with
  | none => rw [hf] at h; simp at h
  | some op =>
    rw [hf] at h
    dsimp at h
    by_cases hc : 3 ≤ countRun (op.getD "W") syms
    · rw [if_pos hc] at h
      cases hpt : PAYTABLE (op.getD "W") (countRun (op.getD "W") syms) with
      | none => rw [hpt] at h; simp at h
      | some w =>
        rw [hpt] at h
        have h2 := Option.some.inj h
        have hp : op.getD "W" = p := congrArg Prod.fst h2
        have h3 := congrArg Prod.snd h2
        have hcnt : countRun (op.getD "W") syms = c := congrArg Prod.fst h3
        have hv : w = v := congrArg Prod.snd h3
        refine ⟨op, rfl, hp.symm, ?_, ?_, ?_⟩
        · rw [← hp]
          exact hcnt.symm
        · rw [← hcnt]
          exact hc
        · rw [← hp, ← hcnt, ← hv]
          exact hpt
    · rw [if_neg hc] at h
      simp at h

theorem countRun_takeWhile (pay : String) :
    ∀ syms : List String,
      countRun pay syms = (syms.takeWhile (fun s => s == pay || s == "W")).length := by
  intro syms
  induction syms with
  | nil => rfl
  | cons s rest ih =>
    by_cases h : s = pay ∨ s = "W"
    · have hb : (s == pay || s == "W") = true := by
        simpa [beq_iff_eq] using h
      simp [countRun, List.takeWhile_cons, hb, if_pos h, ih]
    · have hb : (s == pay || s == "W") = false := by
        rcases not_or.mp h with ⟨h1, h2⟩
        simp [beq_iff_eq, h1, h2]
      simp [countRun, List.takeWhile_cons, hb, if_neg h]

theorem findPaySym_all_wild :
    ∀ syms : List String, (∀ x ∈ syms, x = "W") → findPaySym syms = some none := by
  intro syms
  induction syms with
  | nil => intro _; rfl
  | cons s rest ih =>
    intro hw
    have hsW : s = "W" := hw s (by simp)
    have : findPaySym rest = some none := ih (fun x hx => hw x (by simp [hx]))
    simp [findPaySym, hsW, this]

theorem countRun_all_wild (pay : String) :
    ∀ syms : List String, (∀ x ∈ syms, x = "W") → countRun pay syms = syms.length := by
  intro syms
  induction syms with
  | nil => intro _; rfl
  | cons s rest ih =>
    intro hw
    have hsW : s = "W" := hw s (by simp)
    have h : s = pay ∨ s = "W" := Or.inr hsW
    simp [countRun, if_pos h, ih (fun x hx => hw x (by simp [hx]))]

theorem linesEval_fst_eq_sum_payouts (grid : List (List String)) :
    ∀ el : List (Nat × List Nat),
      (linesEval grid el).1 = ((linesEval grid el).2.map (fun w => w.payout)).sum := by
  intro el
  induction el with
  | nil => rfl
  | cons ip rest ih =>
    obtain ⟨idx, pl⟩ := ip
    cases h : evaluate_payline grid pl with
    | none => simp [linesEval, h, ih]
    | some t =>
      obtain ⟨sym, cnt, pay⟩ := t
      simp [linesEval, h, ih]

/-- C1 (corrected).  The original claim — a scatter anywhere on a payline
always voids that line — is false (see the counterexample): the scatter check
sits inside the pay-symbol scan of `evaluate_payline`, which breaks at the
first non-wild symbol.  What holds is: a payline pays nothing whenever a
scatter occurs at a position all of whose earlier symbols are wilds (in
particular anywhere a scatter is seen during the pay-symbol scan), and a line
win never includes a scatter in its matched run — the paying symbol is never
the scatter and no position inside the counted run holds a scatter. -/
theorem c1_scatter_line_amended :
    (∀ grid payline k, (∀ x ∈ (symbolsOnLine grid payline).take k, x = "W") →
      (symbolsOnLine grid payline).get? k = some "S" →
      evaluate_payline grid payline = none) ∧
    (∀ grid payline p c v, evaluate_payline grid payline = some (p, c, v) →
      p ≠ "S" ∧ ∀ j, j < c → ∀ x, (symbolsOnLine grid payline).get? j = some x → x ≠ "S") := by
  constructor
  · intro grid payline k hw hs
    have hf := findPaySym_none_of_scatter_after_wilds (symbolsOnLine grid payline) k hw hs
    simp [evaluate_payline, evalLineSyms, hf]
  · intro grid payline p c v h
    obtain ⟨op, hf, hp, hc, _, _⟩ := evalLineSyms_inv (symbolsOnLine grid payline) p c v h
    have hpS : p ≠ "S" := by
      cases op with
      | none => simp at hp; subst hp; decide
      | some q =>
        simp at hp
        rw [hp]
        exact findPaySym_some_ne_scatter _ q hf
    refine ⟨hpS, fun j hj x hx => ?_⟩
    have := countRun_get_mem (symbolsOnLine grid payline) p j x (hc ▸ hj) hx
    rcases this with h1 | h1
    · subst h1; exact hpS
    · subst h1; decide

/-- C1 witness: the first conjunct at a grid whose middle payline starts with
a scatter, the second at a concrete winning line. -/
theorem c1_scatter_line_amended_witness :
    evaluate_payline (get_visible_grid [24, 0, 0, 0, 0]) [1, 1, 1, 1, 1] = none ∧
    ("L4" ≠ "S" ∧ ∀ j, j < 3 → ∀ x,
      (symbolsOnLine (get_visible_grid [7, 0, 1, 25, 0]) [1, 1, 1, 1, 1]).get? j = some x →
      x ≠ "S") :=
  ⟨c1_scatter_line_amended.1 (get_visible_grid [24, 0, 0, 0, 0]) [1, 1, 1, 1, 1] 0
      (by decide) (by decide),
   c1_scatter_line_amended.2 (get_visible_grid [7, 0, 1, 25, 0]) [1, 1, 1, 1, 1]
      "L4" 3 3 (by decide)⟩

/-- C1 counterexample: at stop positions `[7, 0, 1, 25, 0]` the middle payline
reads `[L4, L4, L4, S, L1]` — it contains the scatter, yet `evaluate_payline`
returns a 3-of-a-kind `L4` win paying 3, not "no win". -/
theorem c1_scatter_line_counterexample :
    "S" ∈ symbolsOnLine (get_visible_grid [7, 0, 1, 25, 0]) [1, 1, 1, 1, 1] ∧
    evaluate_payline (get_visible_grid [7, 0, 1, 25, 0]) [1, 1, 1, 1, 1] =
      some ("L4", 3, 3) := by
  decide

/-- C2 (confirmed).  The matched run length is the length of the longest
prefix of the line whose symbols are all the paying symbol or the wild: the
counter of `evaluate_payline` computes exactly `takeWhile`; every run length
returned in a win is that prefix length; and the claim's example shape
(match, match, other, match, match) yields run length 2. -/
theorem c2_run_length :
    (∀ pay syms, countRun pay syms =
      (syms.takeWhile (fun s => s == pay || s == "W")).length) ∧
    (∀ grid payline p c v, evaluate_payline grid payline = some (p, c, v) →
      c = ((symbolsOnLine grid payline).takeWhile (fun s => s == p || s == "W")).length) ∧
    countRun "L1" ["L1", "L1", "L2", "L1", "L1"] = 2 := by
  refine ⟨fun pay syms => countRun_takeWhile pay syms, fun grid payline p c v h => ?_, by decide⟩
  obtain ⟨op, _, _, hc, _, _⟩ := evalLineSyms_inv (symbolsOnLine grid payline) p c v h
  rw [hc]
  exact countRun_takeWhile p (symbolsOnLine grid payline)

/-- C2 witness: the second conjunct at a concrete winning line. -/
theorem c2_run_length_witness :
    evaluate_payline (get_visible_grid [7, 0, 1, 25, 0]) [1, 1, 1, 1, 1] = some ("L4", 3, 3) ∧
    3 = ((symbolsOnLine (get_visible_grid [7, 0, 1, 25, 0]) [1, 1, 1, 1, 1]).takeWhile
          (fun s => s == "L4" || s == "W")).length :=
  ⟨by decide,
   c2_run_length.2.1 (get_visible_grid [7, 0, 1, 25, 0]) [1, 1, 1, 1, 1] "L4" 3 3 (by decide)⟩

/-- C3 (confirmed).  For every stop-position list, the total payout returned
by `evaluate_spin` equals the sum of the winning lines' line-bet multipliers
divided by the number of paylines, plus the scatter payout for the grid-wide
scatter count; the free-spin award appears only as the separate `free_spins`
field of the details and does not occur in the payout formula. -/
theorem c3_spin_total (stops : List Nat) :
    (evaluate_spin stops).1 =
      (((((evaluate_spin stops).2.winning_lines.map (fun w => w.payout)).sum : ℕ) : ℚ)) /
          (PAYLINES.length : ℚ)
        + (SCATTER_PAYS (scatterCount (get_visible_grid stops)) : ℚ) ∧
    (evaluate_spin stops).2.free_spins = FREE_SPINS_TRIGGER (scatterCount (get_visible_grid stops)) := by
  unfold evaluate_spin
  dsimp [evaluate_scatters]
  rw [linesEval_fst_eq_sum_payouts]
  exact ⟨rfl, rfl⟩

/-- C9 (confirmed).  A payline whose symbols are all wilds resolves to the
wild as paying symbol, its run length is the full line length, and for a
5-reel line it pays the wild's own paytable entry for run length 5. -/
theorem c9_all_wild_line (grid : List (List String)) (payline : List Nat)
    (hw : ∀ x ∈ symbolsOnLine grid payline, x = "W")
    (h5 : (symbolsOnLine grid payline).length = 5) :
    evaluate_payline grid payline = some ("W", 5, 1000) ∧ PAYTABLE "W" 5 = some 1000 := by
  have hf := findPaySym_all_wild (symbolsOnLine grid payline) hw
  have hcnt := countRun_all_wild "W" (symbolsOnLine grid payline) hw
  rw [h5] at hcnt
  refine ⟨?_, rfl⟩
  simp [evaluate_payline, evalLineSyms, hf, hcnt]
  rfl

/-- C9 witness: all five wilds on the middle payline at stop positions
`[16, 16, 15, 16, 15]`. -/
theorem c9_all_wild_line_witness :
    evaluate_payline (get_visible_grid [16, 16, 15, 16, 15]) [1, 1, 1, 1, 1] =
      some ("W", 5, 1000) ∧ PAYTABLE "W" 5 = some 1000 :=
  c9_all_wild_line (get_visible_grid [16, 16, 15, 16, 15]) [1, 1, 1, 1, 1]
    (by decide) (by decide)

theorem runSimFrom_congr (s₁ s₂ : Nat → Nat) :
    ∀ (m i : Nat) (tbl : List (ℚ × Bucket)),
      (∀ j, NUM_REELS * i ≤ j → j < NUM_REELS * (i + m) → s₁ j = s₂ j) →
      runSimFrom s₁ m i tbl = runSimFrom s₂ m i tbl := by
  intro m
  induction m with
  | zero => intro i tbl _; rfl
  | succ m ih =>
    intro i tbl hagree
    have hstops : trialStops s₁ i = trialStops s₂ i := by
      unfold trialStops
      refine List.map_congr_left ?_
      intro r hr
      have hr5 : r < NUM_REELS := List.mem_range.mp hr
      refine hagree _ (Nat.le_add_right _ _) ?_
      simp only [NUM_REELS] at hr5 ⊢
      omega
    rw [runSimFrom, runSimFrom, hstops]
    refine ih (i + 1) _ (fun j hj1 hj2 => hagree j ?_ ?_) <;>
      simp only [NUM_REELS] at hj1 hj2 ⊢ <;> omega

/-- C4 (confirmed).  The outcome table produced by `run_simulation` is a
function of the seeded generator's draw stream alone — two runs whose streams
agree on the draws actually consumed (five per trial) produce identical
outcome tables: same buckets in the same order, same frequencies, same stored
examples.  Since the generator is a deterministic function of its seed,
two runs with the same seed, trial count and game definition coincide. -/
theorem c4_deterministic_table (s₁ s₂ : Nat → Nat) (n : Nat)
    (h : ∀ j, j < NUM_REELS * n → s₁ j = s₂ j) :
    run_simulation s₁ n = run_simulation s₂ n := by
  unfold run_simulation
  exact runSimFrom_congr s₁ s₂ n 0 [] (fun j _ hj2 => h j (by simpa using hj2))

/-- C4 witness: two streams that agree on the ten draws a two-trial run
consumes (and disagree beyond them) yield identical outcome tables. -/
theorem c4_deterministic_table_witness :
    run_simulation (fun j => j % 30) 2 =
      run_simulation (fun j => if j < 10 then j % 30 else 0) 2 :=
  c4_deterministic_table (fun j => j % 30) (fun j => if j < 10 then j % 30 else 0) 2
    (by decide)

theorem tableCount_bump (tbl : List (ℚ × Bucket)) (key : ℚ) (ex : ExampleRec) :
    tableCount (bump tbl key ex) = tableCount tbl + 1 := by
  induction tbl with
  | nil => rfl
  | cons kb rest ih =>
    obtain ⟨k, b⟩ := kb
    by_cases h : k = key
    · simp only [bump, if_pos h, tableCount, List.map_cons, List.sum_cons]
      omega
    · simp only [bump, if_neg h, tableCount, List.map_cons, List.sum_cons]
      simp only [tableCount] at ih
      omega

theorem tableCount_runSimFrom (s : Nat → Nat) :
    ∀ (m i : Nat) (tbl : List (ℚ × Bucket)),
      tableCount (runSimFrom s m i tbl) = tableCount tbl + m := by
  intro m
  induction m with
  | zero => intro i tbl; rfl
  | succ m ih =>
    intro i tbl
    rw [runSimFrom, ih, tableCount_bump]
    omega

theorem roundTo_sub_abs (d : Nat) (q : ℚ) : |roundTo d q - q| ≤ 1 / (2 * 10 ^ d) := by
  unfold roundTo
  have hpow : (0 : ℚ) < 10 ^ d := by positivity
  have h1 : |((round (q * (10 : ℚ) ^ d) : ℤ) : ℚ) - q * 10 ^ d| ≤ 1 / 2 := by
    calc |((round (q * (10 : ℚ) ^ d) : ℤ) : ℚ) - q * 10 ^ d|
        = |q * 10 ^ d - ((round (q * (10 : ℚ) ^ d) : ℤ) : ℚ)| := abs_sub_comm _ _
      _ ≤ 1 / 2 := abs_sub_round _
  have heq : ((round (q * (10 : ℚ) ^ d) : ℤ) : ℚ) / 10 ^ d - q =
      (((round (q * (10 : ℚ) ^ d) : ℤ) : ℚ) - q * 10 ^ d) / 10 ^ d := by
    field_simp
    ring
  rw [heq, abs_div, abs_of_pos hpow, show (1 : ℚ) / (2 * 10 ^ d) = (1 / 2) / 10 ^ d by
    rw [div_div]]
  exact (div_le_div_iff_of_pos_right hpow).mpr h1

theorem sum_map_roundTo_close (d : Nat) :
    ∀ l : List ℚ, |(l.map (roundTo d)).sum - l.sum| ≤ l.length * (1 / (2 * 10 ^ d)) := by
  intro l
  induction l with
  | nil => simp
  | cons a t ih =>
    simp only [List.map_cons, List.sum_cons, List.length_cons]
    have hsplit : roundTo d a + (t.map (roundTo d)).sum - (a + t.sum) =
        (roundTo d a - a) + ((t.map (roundTo d)).sum - t.sum) := by ring
    rw [hsplit]
    calc |(roundTo d a - a) + ((t.map (roundTo d)).sum - t.sum)|
        ≤ |roundTo d a - a| + |(t.map (roundTo d)).sum - t.sum| := abs_add _ _
      _ ≤ 1 / (2 * 10 ^ d) + t.length * (1 / (2 * 10 ^ d)) :=
          add_le_add (roundTo_sub_abs d a) ih
      _ = (t.length + 1 : ℚ) * (1 / (2 * 10 ^ d)) := by ring
      _ = ((t.length + 1 : ℕ) : ℚ) * (1 / (2 * 10 ^ d)) := by push_cast; ring

theorem sum_probs (n : Nat) :
    ∀ tbl : List (ℚ × Bucket),
      (tbl.map (fun kb => (kb.2.count : ℚ) / (n : ℚ))).sum = (tableCount tbl : ℚ) / (n : ℚ) := by
  intro tbl
  induction tbl with
  | nil => simp [tableCount]
  | cons kb rest ih =>
    simp only [List.map_cons, List.sum_cons, ih]
    have h : tableCount (kb :: rest) = kb.2.count + tableCount rest := by
      simp [tableCount]
    rw [h]
    push_cast
    ring

/-- C5 (confirmed, with the bucket-count bound the 1e-6 tolerance rests on
made explicit).  The bucket frequencies of a sampling run of `n` trials sum to
exactly `n`; consequently the exact bucket probabilities sum to 1, and since
each exported probability is rounded to 10 decimal places (error at most
5e-11 per row), for any table of at most 20000 buckets the exported
probabilities sum to 1 within 1e-6. -/
theorem c5_frequencies_and_probability_sum (s : Nat → Nat) (n : Nat) (hn : 0 < n)
    (hb : (run_simulation s n).length ≤ 20000) :
    tableCount (run_simulation s n) = n ∧
    |(exportProbs (run_simulation s n) n).sum - 1| ≤ 1 / 1000000 := by
  have hcnt : tableCount (run_simulation s n) = n := by
    unfold run_simulation
    rw [tableCount_runSimFrom]
    simp [tableCount]
  refine ⟨hcnt, ?_⟩
  have hperm : List.Perm (sortedBuckets (run_simulation s n)) (run_simulation s n) :=
    List.perm_insertionSort _ _
  have hmapped : exportProbs (run_simulation s n) n =
      ((sortedBuckets (run_simulation s n)).map
        (fun kb => (kb.2.count : ℚ) / (n : ℚ))).map (roundTo 10) := by
    unfold exportProbs
    rw [List.map_map]
    rfl
  have hsum : ((sortedBuckets (run_simulation s n)).map
      (fun kb => (kb.2.count : ℚ) / (n : ℚ))).sum = 1 := by
    rw [(hperm.map (fun kb => (kb.2.count : ℚ) / (n : ℚ))).sum_eq, sum_probs, hcnt]
    exact div_self (Nat.cast_ne_zero.mpr hn.ne')
  have hclose := sum_map_roundTo_close 10
    ((sortedBuckets (run_simulation s n)).map (fun kb => (kb.2.count : ℚ) / (n : ℚ)))
  rw [hsum] at hclose
  rw [hmapped]
  have hlen2 : (((sortedBuckets (run_simulation s n)).map
      (fun kb => (kb.2.count : ℚ) / (n : ℚ))).length : ℚ) ≤ 20000 := by
    rw [List.length_map, hperm.length_eq]
    exact_mod_cast hb
  calc |(((sortedBuckets (run_simulation s n)).map
        (fun kb => (kb.2.count : ℚ) / (n : ℚ))).map (roundTo 10)).sum - 1|
      ≤ _ * (1 / (2 * 10 ^ 10)) := hclose
    _ ≤ 20000 * (1 / (2 * 10 ^ 10)) :=
        mul_le_mul_of_nonneg_right hlen2 (by positivity)
    _ = 1 / 1000000 := by norm_num

/-- C5 witness: a one-trial run with the constant-zero stream. -/
theorem c5_frequencies_and_probability_sum_witness :
    0 < 1 ∧ (run_simulation (fun _ => 0) 1).length ≤ 20000 ∧
      (tableCount (run_simulation (fun _ => 0) 1) = 1 ∧
       |(exportProbs (run_simulation (fun _ => 0) 1) 1).sum - 1| ≤ 1 / 1000000) :=
  ⟨by decide, by decide,
   c5_frequencies_and_probability_sum (fun _ => 0) 1 (by decide) (by decide)⟩

theorem fsSessionAux_eq_sum (s : Nat → Nat) (start : Nat) :
    ∀ (m j : Nat), fsSessionAux s start j m =
      ((List.range m).map (fun t => fsBoostedSpin s start (j + t))).sum := by
  intro m
  induction m with
  | zero => intro j; simp [fsSessionAux]
  | succ m ih =>
    intro j
    rw [fsSessionAux, ih (j + 1), List.range_succ_eq_map, List.map_cons, List.sum_cons,
      List.map_map]
    have h2 : ((List.range m).map ((fun t => fsBoostedSpin s start (j + t)) ∘ Nat.succ)) =
        ((List.range m).map (fun t => fsBoostedSpin s start (j + 1 + t))) := by
      refine List.map_congr_left ?_
      intro t _
      simp only [Function.comp_apply]
      congr 1
      omega
    rw [h2]
    simp

/-- C6 (confirmed).  The free-spins session total that gets bucketed is the
sum, over the session's sub-spins, of that spin's line payout divided by the
number of paylines times the free-spins multiplier; the formula contains no
scatter term — scatter payouts and scatter-triggered awards inside the
session contribute nothing to the bucketed session total. -/
theorem c6_session_total (s : Nat → Nat) (start num_fs : Nat) :
    simulate_fs_session s start num_fs =
      ((List.range num_fs).map (fun j =>
        (((((evaluate_spin (fsStops s start j)).2.winning_lines.map
            (fun w => w.payout)).sum : ℕ) : ℚ) / (PAYLINES.length : ℚ)) *
          (FREE_SPINS_MULTIPLIER : ℚ))).sum := by
  unfold simulate_fs_session
  rw [fsSessionAux_eq_sum s start num_fs 0]
  refine congrArg List.sum (List.map_congr_left ?_)
  intro t _
  show fsBoostedSpin s start (0 + t) = _
  rw [Nat.zero_add]
  rfl

end Slot

namespace Tuner

open Slot

theorem tuneLoop_mem_min {σ : Type} (measure : σ → List (List String) → ℚ × σ)
    (perturb : σ → List (List String) → ℚ → List (List String) × σ) (target : ℚ) :
    ∀ (fuel : Nat) (st : σ) (strips : List (List String)) (current : ℚ)
      (bestS : List (List String)) (bestR : ℚ),
      tuneLoop measure perturb target fuel st strips current bestS bestR ∈
        (bestS, bestR) :: tuneLoopObs measure perturb target fuel st strips current ∧
      ∀ q ∈ (bestS, bestR) :: tuneLoopObs measure perturb target fuel st strips current,
        |(tuneLoop measure perturb target fuel st strips current bestS bestR).2 - target| ≤
          |q.2 - target| := by
  intro fuel
  induction fuel with
  | zero =>
    intro st strips current bestS bestR
    refine ⟨by simp [tuneLoop, tuneLoopObs], ?_⟩
    intro q hq
    simp [tuneLoopObs] at hq
    simp [tuneLoop, hq]
  | succ fuel ih =>
    intro st strips current bestS bestR
    by_cases htol : |target - current| < 1 / 200
    · simp only [tuneLoop, tuneLoopObs, if_pos htol]
      refine ⟨by simp, ?_⟩
      intro q hq
      simp at hq
      simp [hq]
    · simp only [tuneLoop, tuneLoopObs, if_neg htol]
      by_cases hbet : |(measure (perturb st strips (target - current)).2
          (perturb st strips (target - current)).1).1 - target| < |bestR - target|
      · rw [if_pos hbet]
        obtain ⟨hmem, hmin⟩ := ih (measure (perturb st strips (target - current)).2
            (perturb st strips (target - current)).1).2
          (perturb st strips (target - current)).1
          (measure (perturb st strips (target - current)).2
            (perturb st strips (target - current)).1).1
          (perturb st strips (target - current)).1
          (measure (perturb st strips (target - current)).2
            (perturb st strips (target - current)).1).1
        refine ⟨?_, ?_⟩
        · exact List.mem_cons_of_mem _ hmem
        · intro q hq
          rcases List.mem_cons.mp hq with hq | hq
          · subst hq
            exact le_trans (hmin _ (List.mem_cons_self _ _)) (le_of_lt hbet)
          · exact hmin q hq
      · rw [if_neg hbet]
        obtain ⟨hmem, hmin⟩ := ih (measure (perturb st strips (target - current)).2
            (perturb st strips (target - current)).1).2
          (perturb st strips (target - current)).1
          (measure (perturb st strips (target - current)).2
            (perturb st strips (target - current)).1).1
          bestS bestR
        refine ⟨?_, ?_⟩
        · rcases List.mem_cons.mp hmem with hm | hm
          · exact hm ▸ List.mem_cons_self _ _
          · exact List.mem_cons_of_mem _ (List.mem_cons_of_mem _ hm)
        · intro q hq
          rcases List.mem_cons.mp hq with hq | hq
          · exact hq ▸ hmin _ (List.mem_cons_self _ _)
          · rcases List.mem_cons.mp hq with hq | hq
            · subst hq
              exact le_trans (hmin _ (List.mem_cons_self _ _)) (not_lt.mp hbet)
            · exact hmin q (List.mem_cons_of_mem _ hq)

/-- C7 (confirmed).  `tune_strips` returns one of the measured
`(candidate, ratio)` pairs, its ratio is closest to the target by absolute
distance among all ratios observed across the iterations, and in particular
it is never farther from the target than the ratio measured for the initial
strips.  The re-sampling and the random strip perturbation are abstracted as
oracles threading the generator state; the retention logic is embedded from
`rtp_tuner.py:78`–`123`. -/
theorem c7_tuner_best_retention {σ : Type} (measure : σ → List (List String) → ℚ × σ)
    (perturb : σ → List (List String) → ℚ → List (List String) × σ)
    (target : ℚ) (iterations : Nat) (st0 : σ) (strips0 : List (List String)) :
    tune_strips measure perturb target iterations st0 strips0 ∈
      tuneObserved measure perturb target iterations st0 strips0 ∧
    (∀ q ∈ tuneObserved measure perturb target iterations st0 strips0,
      |(tune_strips measure perturb target iterations st0 strips0).2 - target| ≤
        |q.2 - target|) ∧
    |(tune_strips measure perturb target iterations st0 strips0).2 - target| ≤
      |(measure st0 strips0).1 - target| := by
  obtain ⟨hmem, hmin⟩ := tuneLoop_mem_min measure perturb target iterations
    (measure st0 strips0).2 strips0 (measure st0 strips0).1 strips0 (measure st0 strips0).1
  refine ⟨hmem, hmin, ?_⟩
  exact hmin (strips0, (measure st0 strips0).1) (List.mem_cons_self _ _)

/-- C7 witness: trivial oracles at one iteration. -/
theorem c7_tuner_best_retention_witness :
    (([], (0 : ℚ)) : List (List String) × ℚ) ∈
      tuneObserved (fun (_ : Unit) _ => ((0 : ℚ), ())) (fun _ strips _ => (strips, ()))
        1 1 () [] ∧
    |(tune_strips (fun (_ : Unit) _ => ((0 : ℚ), ())) (fun _ strips _ => (strips, ()))
        1 1 () []).2 - 1| ≤ |(([], (0 : ℚ)) : List (List String) × ℚ).2 - 1| :=
  ⟨by decide,
   (c7_tuner_best_retention (fun (_ : Unit) _ => ((0 : ℚ), ())) (fun _ strips _ => (strips, ()))
      1 1 () []).2.1 ([], 0) (by decide)⟩

theorem quickGridAux_isSome (strips : List (List String)) (s : Nat → Nat) (i : Nat) :
    ∀ (m r : Nat), (∀ k, k < m → strips.getD (r + k) [] ≠ []) →
      (quickGridAux strips s i r m).isSome = true := by
  intro m
  induction m with
  | zero => intro r _; rfl
  | succ m ih =>
    intro r h
    have h0 : strips.getD r [] ≠ [] := by simpa using h 0 (Nat.succ_pos m)
    have hlen : ¬(strips.getD r []).length = 0 :=
      fun hh => h0 (List.length_eq_zero.mp hh)
    simp only [quickGridAux, drawStop, if_neg hlen]
    rw [Option.isSome_map']
    refine ih (r + 1) ?_
    intro k hk
    have := h (k + 1) (by omega)
    rwa [show r + 1 + k = r + (k + 1) by omega]

theorem quickGridAux_none (strips : List (List String)) (s : Nat → Nat) (i : Nat) :
    ∀ (m r k : Nat), k < m → strips.getD (r + k) [] = [] →
      quickGridAux strips s i r m = none := by
  intro m
  induction m with
  | zero => intro r k hk _; exact absurd hk (Nat.not_lt_zero k)
  | succ m ih =>
    intro r k hk hempty
    by_cases h0 : (strips.getD r []).length = 0
    · simp only [quickGridAux, drawStop, if_pos h0]
    · cases k with
      | zero =>
        refine absurd ?_ h0
        rw [show strips.getD r [] = [] from by simpa using hempty]
        rfl
      | succ k =>
        have hrec := ih (r + 1) k (by omega)
          (by rw [show r + 1 + k = r + (k + 1) by omega]; exact hempty)
        simp only [quickGridAux, drawStop, if_neg h0, hrec, Option.map_none']

theorem quickSimFrom_isSome (pt : String → Nat → Option Nat) (strips : List (List String))
    (s : Nat → Nat) (hne : ∀ r, r < NUM_REELS → strips.getD r [] ≠ []) :
    ∀ (m i : Nat) (acc : ℚ), (quickSimFrom pt strips s m i acc).isSome = true := by
  intro m
  induction m with
  | zero => intro i acc; rfl
  | succ m ih =>
    intro i acc
    have hg : (quickTrialGrid strips s i).isSome = true := by
      refine quickGridAux_isSome strips s i NUM_REELS 0 ?_
      intro k hk
      simpa using hne k hk
    obtain ⟨g, hg2⟩ := Option.isSome_iff_exists.mp hg
    simp only [quickSimFrom, quickTrialGrid] at hg2 ⊢
    rw [hg2]
    exact ih (i + 1) _

theorem quickSimFrom_none (pt : String → Nat → Option Nat) (strips : List (List String))
    (s : Nat → Nat) (r : Nat) (hr : r < NUM_REELS) (hempty : strips.getD r [] = []) :
    ∀ (m i : Nat) (acc : ℚ), 1 ≤ m → quickSimFrom pt strips s m i acc = none := by
  intro m
  cases m with
  | zero => intro i acc h1; exact absurd h1 (by omega)
  | succ m =>
    intro i acc _
    have hg : quickTrialGrid strips s i = none := by
      refine quickGridAux_none strips s i NUM_REELS 0 r hr ?_
      simpa using hempty
    simp only [quickSimFrom, quickTrialGrid] at hg ⊢
    rw [hg]

/-- C8 (corrected).  The original claim — configuration errors are detected
and reported before any sampling trial is evaluated — is false: no validation
exists anywhere.  What holds is: the sampler runs to completion for any
paytable whatsoever (a paytable entry for a symbol outside the symbol table
is silently ignored, never reported), and an empty reel strip surfaces only
as a failure when the first trial draws a stop position, i.e. mid-run, not as
a pre-run configuration error. -/
theorem c8_no_validation :
    (∀ (pt : String → Nat → Option Nat) (strips : List (List String)) (s : Nat → Nat)
      (n : Nat), (∀ r, r < NUM_REELS → strips.getD r [] ≠ []) →
      (quick_sim pt strips s n).isSome = true) ∧
    (∀ (pt : String → Nat → Option Nat) (strips : List (List String)) (s : Nat → Nat)
      (n r : Nat), r < NUM_REELS → strips.getD r [] = [] → 1 ≤ n →
      quick_sim pt strips s n = none) := by
  constructor
  · intro pt strips s n hne
    unfold quick_sim
    rw [Option.isSome_map']
    exact quickSimFrom_isSome pt strips s hne n 0 0
  · intro pt strips s n r hr hempty hn
    unfold quick_sim
    rw [quickSimFrom_none pt strips s r hr hempty n 0 0 hn]
    rfl

/-- C8 witness: the first conjunct at a paytable with an unknown symbol, the
second at strips with an empty first reel. -/
theorem c8_no_validation_witness :
    (quick_sim paytableUnknownSym Slot.REEL_STRIPS (fun _ => 0) 1).isSome = true ∧
    quick_sim Slot.PAYTABLE stripsEmptyReel (fun _ => 0) 1 = none :=
  ⟨c8_no_validation.1 paytableUnknownSym Slot.REEL_STRIPS (fun _ => 0) 1 (by decide),
   c8_no_validation.2 Slot.PAYTABLE stripsEmptyReel (fun _ => 0) 1 0 (by decide) (by decide)
     (by decide)⟩

/-- C8 counterexample: a Game Definition whose paytable holds an entry for
the symbol identifier `X`, which is not in the symbol table — a configuration
invariant violation — yet one full sampling trial runs and the run completes
with a result instead of any configuration error being detected or
reported. -/
theorem c8_no_validation_counterexample :
    ("X" ∉ Slot.SYMBOLS ∧ paytableUnknownSym "X" 3 = some 30) ∧
    (quick_sim paytableUnknownSym Slot.REEL_STRIPS (fun _ => 0) 1).isSome = true := by
  decide

theorem quickLoop_rel :
    ∀ syms : List String,
      (findPaySym syms = none → quickLoop syms = none ∧ "S" ∈ syms) ∧
      (findPaySym syms = some none → quickLoop syms = none ∧ ∀ x ∈ syms, x = "W") ∧
      (∀ p, findPaySym syms = some (some p) → quickLoop syms = some p) := by
  intro syms
  induction syms with
  | nil =>
    refine ⟨fun h => ?_, fun _ => ⟨rfl, by simp⟩, fun p h => ?_⟩
    · simp [findPaySym] at h
    · simp [findPaySym] at h
  | cons s rest ih =>
    by_cases hS : s = "S"
    · refine ⟨fun _ => ⟨by simp [quickLoop, hS], by simp [hS]⟩, fun h => ?_, fun p h => ?_⟩
      · rw [findPaySym, if_pos hS] at h
        simp at h
      · rw [findPaySym, if_pos hS] at h
        simp at h
    · by_cases hW : s = "W"
      · have hfp : findPaySym (s :: rest) = findPaySym rest := by
          rw [findPaySym, if_neg hS]
          simp [hW]
        have hql : quickLoop (s :: rest) = quickLoop rest := by
          rw [quickLoop, if_neg hS]
          simp [hW]
        refine ⟨fun h => ?_, fun h => ?_, fun p h => ?_⟩
        · obtain ⟨h1, h2⟩ := ih.1 (by rwa [hfp] at h)
          exact ⟨by rwa [hql], by simp [h2]⟩
        · obtain ⟨h1, h2⟩ := ih.2.1 (by rwa [hfp] at h)
          refine ⟨by rwa [hql], fun x hx => ?_⟩
          rcases List.mem_cons.mp hx with hx | hx
          · exact hx.trans hW
          · exact h2 x hx
        · rw [hql]
          exact ih.2.2 p (by rwa [hfp] at h)
      · have hfp : findPaySym (s :: rest) = some (some s) := by
          rw [findPaySym, if_neg hS, if_pos hW]
        refine ⟨fun h => ?_, fun h => ?_, fun p h => ?_⟩
        · rw [hfp] at h
          simp at h
        · rw [hfp] at h
          simp at h
        · rw [hfp] at h
          have hsp : s = p := by simpa using h
          rw [quickLoop, if_neg hS, if_pos hW, hsp]

theorem quickCount_eq (pay : String) :
    ∀ syms : List String, quickCount pay syms = countRun pay syms := by
  intro syms
  induction syms with
  | nil => rfl
  | cons s rest ih =>
    by_cases h : s = pay ∨ s = "W"
    · simp [quickCount, countRun, if_pos h, ih]
    · simp [quickCount, countRun, if_neg h]

theorem evalLineSyms_elim_of_findPaySym (syms : List String) (op : Option String)
    (hf : findPaySym syms = some op) :
    (evalLineSyms syms).elim 0 (fun t => t.2.2) =
      (if 3 ≤ countRun (op.getD "W") syms then
        (PAYTABLE (op.getD "W") (countRun (op.getD "W") syms)).getD 0
      else 0) := by
  unfold evalLineSyms
  rw [hf]
  dsimp
  by_cases hc : 3 ≤ countRun (op.getD "W") syms
  · rw [if_pos hc, if_pos hc]
    cases hpt : PAYTABLE (op.getD "W") (countRun (op.getD "W") syms) with
    | none => simp
    | some v => simp
  · rw [if_neg hc, if_neg hc]
    simp

theorem quickLinePayout_eq (syms : List String) :
    quickLinePayout PAYTABLE syms = (evalLineSyms syms).elim 0 (fun t => t.2.2) := by
  cases hf : findPaySym syms with
  | none =>
    obtain ⟨hql, hmem⟩ := (quickLoop_rel syms).1 hf
    have hcont : syms.contains "S" = true := by simpa using hmem
    have hpq : quickPaySym syms = none := by
      unfold quickPaySym
      rw [hql, hcont]
      simp
    unfold quickLinePayout
    rw [hpq]
    unfold evalLineSyms
    rw [hf]
    rfl
  | some op =>
    cases op with
    | none =>
      obtain ⟨hql, hallW⟩ := (quickLoop_rel syms).2.1 hf
      have hcont : syms.contains "S" = false := by
        by_contra hc
        rw [Bool.not_eq_false] at hc
        have hm : "S" ∈ syms := by simpa using hc
        have h2 := hallW "S" hm
        exact absurd h2 (by decide)
      have hall : syms.all (fun s => s == "W" || s == "S") = true := by
        rw [List.all_eq_true]
        intro x hx
        rw [hallW x hx]
        rfl
      have hpq : quickPaySym syms = some "W" := by
        unfold quickPaySym
        rw [hql, hall, hcont]
        rfl
      unfold quickLinePayout
      rw [hpq, evalLineSyms_elim_of_findPaySym syms none hf]
      dsimp only
      simp only [Option.getD_none]
      rw [quickCount_eq]
    | some p =>
      have hql := (quickLoop_rel syms).2.2 p hf
      have hpq : quickPaySym syms = some p := by
        unfold quickPaySym
        rw [hql]
      unfold quickLinePayout
      rw [hpq, evalLineSyms_elim_of_findPaySym syms (some p) hf]
      dsimp only
      simp only [Option.getD_some]
      rw [quickCount_eq]

theorem linesEval_fst_map (grid : List (List String)) :
    ∀ el : List (Nat × List Nat),
      (linesEval grid el).1 =
        (el.map (fun ip => (evaluate_payline grid ip.2).elim 0 (fun t => t.2.2))).sum := by
  intro el
  induction el with
  | nil => rfl
  | cons ip rest ih =>
    obtain ⟨idx, pl⟩ := ip
    cases h : evaluate_payline grid pl with
    | none => simp [linesEval, h, ih]
    | some t =>
      obtain ⟨sym, cnt, pay⟩ := t
      simp [linesEval, h, ih]

set_option maxHeartbeats 2000000 in
/-- C10 (confirmed).  For every five-reel stop-position list, the per-spin
payout accumulated by the inline evaluator of `quick_sim`, invoked with the
strips of `slot_config.py`, equals the total payout `evaluate_spin` of
`simulator.py` returns for the same stop positions. -/
theorem c10_quick_sim_refines_evaluate_spin (stops : List Nat) (h5 : stops.length = 5) :
    quickSpinFromGrid PAYTABLE (quickGrid REEL_STRIPS stops) = (evaluate_spin stops).1 := by
  rcases stops with _ | ⟨a, _ | ⟨b, _ | ⟨c, _ | ⟨d, _ | ⟨e, rest⟩⟩⟩⟩⟩ <;>
    simp only [List.length_cons, List.length_nil] at h5 <;> try omega
  have hrest : rest = [] := List.eq_nil_of_length_eq_zero (by omega)
  subst hrest
  have hgrid : quickGrid REEL_STRIPS [a, b, c, d, e] = get_visible_grid [a, b, c, d, e] := rfl
  have hline : (PAYLINES.map (fun pl =>
      quickLinePayout PAYTABLE (symbolsOnLine (get_visible_grid [a, b, c, d, e]) pl))).sum =
      (linesEval (get_visible_grid [a, b, c, d, e]) PAYLINES.enum).1 := by
    rw [linesEval_fst_map]
    rw [show (fun ip : Nat × List Nat =>
        (evaluate_payline (get_visible_grid [a, b, c, d, e]) ip.2).elim 0 (fun t => t.2.2)) =
        ((fun pl => (evaluate_payline (get_visible_grid [a, b, c, d, e]) pl).elim 0
          (fun t => t.2.2)) ∘ Prod.snd) from rfl]
    rw [← List.map_map]
    rw [show PAYLINES.enum.map Prod.snd = PAYLINES from rfl]
    refine congrArg List.sum (List.map_congr_left ?_)
    intro pl _
    exact quickLinePayout_eq (symbolsOnLine (get_visible_grid [a, b, c, d, e]) pl)
  rw [hgrid]
  unfold quickSpinFromGrid evaluate_spin
  dsimp only [evaluate_scatters]
  rw [hline]

/-- C10 witness: agreement at the concrete stop positions `[1, 2, 3, 4, 5]`. -/
theorem c10_quick_sim_refines_evaluate_spin_witness :
    ([1, 2, 3, 4, 5] : List Nat).length = 5 ∧
    quickSpinFromGrid PAYTABLE (quickGrid REEL_STRIPS [1, 2, 3, 4, 5]) =
      (evaluate_spin [1, 2, 3, 4, 5]).1 :=
  ⟨by decide, c10_quick_sim_refines_evaluate_spin [1, 2, 3, 4, 5] (by decide)⟩

end Tuner


